import Mathlib

/-!
# Verification of the fac-cli tool (shallow embedding)

This file embeds the decision logic of the `fac-cli` repository —
URL conversion (`sources/airtable.py`), record transformation
(`commands/gr.py`), table formatting (`display.py`), configuration
resolution (`config.py`) and argument dispatch (`fac.py`) — as
executable Lean definitions, and proves the behavioural properties
stated in the specification.

Python strings are modelled as Lean `String` (lists of unicode code
points, which matches Python's character-indexed slicing and `len`).
Fatal `error(...)`+`sys.exit` paths are modelled with `Except`, carrying
the error message (and, where relevant, the exit code and the lines
written to the error stream).  Process side effects (the actual HTTP
request, printing) are modelled as returned line lists; the third-party
`tabulate` renderer is taken as an explicit function parameter.
-/

namespace FacCli

/-! ## Python string primitives -/

/-- Python `s.startswith(p)`: `p` is a prefix of `s` (by code points). -/
def pyStartsWith (s p : String) : Bool :=
  p.data.isPrefixOf s.data

/-- Python `s.split(sep)` for a single-character separator: splits on every
occurrence of `sep`, keeping empty chunks (`"".split(sep) == [""]`). -/
def pySplitOnChar (sep : Char) : List Char → List (List Char)
  | [] => [[]]
  | c :: cs =>
    if c = sep then
      [] :: pySplitOnChar sep cs
    else
      match pySplitOnChar sep cs with
      | [] => [[c]]
      | g :: gs => (c :: g) :: gs

/-- Worker for `pyReplace`, structurally recursive on a fuel argument so that
the definition reduces in the kernel.  One unit of fuel is spent per step and
every step consumes at least one character of the remaining input, so fuel
equal to the input length is always sufficient (when the fuel hits `0` the
remaining input is necessarily empty). -/
def pyReplaceAux (pat repl : List Char) : Nat → List Char → List Char
  | _, [] => []
  | 0, s => s
  | fuel + 1, c :: cs =>
    if pat ≠ [] ∧ pat.isPrefixOf (c :: cs) then
      repl ++ pyReplaceAux pat repl fuel ((c :: cs).drop pat.length)
    else
      c :: pyReplaceAux pat repl fuel cs

/-- Python `s.replace(pat, repl)` (for non-empty `pat`): replaces every
non-overlapping occurrence of `pat` in `s` by `repl`, scanning left to
right. -/
def pyReplace (pat repl s : List Char) : List Char :=
  pyReplaceAux pat repl s.length s

/-- Python `s.lower()` (ASCII case folding suffices here). -/
def pyLower (s : String) : String :=
  String.mk (s.data.map Char.toLower)

/-! ## Python decimal rendering of integers -/

/-- The ASCII character of the decimal digit `d` (`0 ≤ d ≤ 9`). -/
def digitChar (d : Nat) : Char :=
  Char.ofNat (48 + d)

/-- Worker for `natDigits`, fuelled for kernel reducibility; fuel `n + 1`
always suffices since the argument shrinks by a factor of 10 each step. -/
def natDigitsAux : Nat → Nat → List Char
  | 0, _ => []
  | fuel + 1, n =>
    if n < 10 then [digitChar n]
    else natDigitsAux fuel (n / 10) ++ [digitChar (n % 10)]

/-- Decimal digit string of a natural number (`natDigits 0 = ['0']`). -/
def natDigits (n : Nat) : List Char :=
  natDigitsAux (n + 1) n

/-- Python `str(i)` for an integer: decimal digits, with a leading `-` for
negative values. -/
def pyIntStr : Int → String
  | .ofNat m => String.mk (natDigits m)
  | .negSucc m => String.mk ('-' :: natDigits (m + 1))

/-! ## JSON-compatible Python values

A `Record` (one Airtable row's field data) maps field names to
JSON-compatible values: null, booleans, numbers, strings, lists and nested
objects.  Python `dict`s are modelled as association lists (keyed by field
name, first binding wins on lookup, as dict keys are unique). -/

inductive JVal where
  | vNull : JVal
  | vBool : Bool → JVal
  | vNum : Int → JVal
  | vStr : String → JVal
  | vList : List JVal → JVal
  | vObj : List (String × JVal) → JVal

/-- Python `repr` of a string: quoted with `'`, or with `"` when the string
contains `'` but no `"` (escaping of special characters inside the string is
not modelled; no claim depends on it). -/
def pyReprStr (s : String) : String :=
  if s.data.contains '\'' && !s.data.contains '"' then
    "\"" ++ s ++ "\""
  else
    "'" ++ s ++ "'"

mutual

/-- Python `repr` of a JSON-compatible value. -/
def pyRepr : JVal → String
  | .vNull => "None"
  | .vBool true => "True"
  | .vBool false => "False"
  | .vNum n => pyIntStr n
  | .vStr s => pyReprStr s
  | .vList xs => "[" ++ pyReprSeq xs ++ "]"
  | .vObj kvs => "\x7b" ++ pyReprPairs kvs ++ "\x7d"

/-- Comma-separated `repr`s of list elements. -/
def pyReprSeq : List JVal → String
  | [] => ""
  | [x] => pyRepr x
  | x :: y :: xs => pyRepr x ++ ", " ++ pyReprSeq (y :: xs)

/-- Comma-separated `key: value` `repr`s of dict entries. -/
def pyReprPairs : List (String × JVal) → String
  | [] => ""
  | [(k, v)] => pyReprStr k ++ ": " ++ pyRepr v
  | (k, v) :: kv :: kvs => pyReprStr k ++ ": " ++ pyRepr v ++ ", " ++ pyReprPairs (kv :: kvs)

end

/-- Python `str(v)`: a string is returned as itself, every other value is
rendered as its `repr` (this matches CPython for None, bools, ints, lists
and dicts). -/
def pyStr (v : JVal) : String :=
  match v with
  | .vStr s => s
  | v => pyRepr v

/-- One row's field data: field name to JSON-compatible value. -/
abbrev Record := List (String × JVal)

/-- Python `dict` lookup `r[k]` / membership `k in r` (as an `Option`):
value at the first binding of `k`. -/
def recordGet : Record → String → Option JVal
  | [], _ => none
  | (k, v) :: rest, key => if k = key then some v else recordGet rest key

/-! ## `commands/gr.py` — record transform -/

/-- `gr.flatten_array_value`: a list becomes the string form of its first
element (empty string for the empty list); `None` becomes the empty string;
anything else becomes its string form. -/
def flatten_array_value : JVal → String
  | .vList [] => ""
  | .vList (x :: _) => pyStr x
  | .vNull => ""
  | v => pyStr v

/-- `gr.abbreviate_name`: `name[:4]` — the first 4 characters, or the whole
name when shorter. -/
def abbreviate_name (name : String) : String :=
  String.mk (name.data.take 4)

/-- The per-record body of `gr.process`: a shallow copy in which, when the
key `"Family name"` is present, its value is rewritten to
`abbreviate_name (flatten_array_value old)`; all other bindings are kept. -/
def processRecord (r : Record) : Record :=
  match recordGet r "Family name" with
  | none => r
  | some v =>
    r.map fun kv =>
      if kv.1 = "Family name" then
        (kv.1, JVal.vStr (abbreviate_name (flatten_array_value v)))
      else kv

/-- `gr.process`: `None` and the empty list give `[]` (the Python guard
`if not data` covers both); otherwise each record is transformed by
`processRecord`. -/
def process : Option (List Record) → List Record
  | none => []
  | some [] => []
  | some records => records.map processRecord

/-! ## `sources/airtable.py` — URL conversion and fatal errors -/

/-- The API host prefix checked first by `convert_url`. -/
def apiHostStr : String := "https://api.airtable.com/"

/-- The human-facing host prefix required of non-API inputs. -/
def humanHostStr : String := "https://airtable.com/"

/-- Message for an input with neither host prefix. -/
def invalidUrlMsg : String :=
  "Invalid Airtable URL. Expected format: https://airtable.com/appXXXXX/tblXXXXX/viwXXXXX"

/-- Message for fewer than three path segments. -/
def invalidFormatMsg : String :=
  "Invalid Airtable URL format. Expected: https://airtable.com/appXXXXX/tblXXXXX/viwXXXXX"

/-- Message for segments not starting with `app`/`tbl`/`viw`. -/
def invalidComponentsMsg : String :=
  "Invalid Airtable URL components. Expected appXXXXX/tblXXXXX/viwXXXXX format"

/-- The path segments `convert_url` works on:
`url.replace("https://airtable.com/", "").split("/")`.  Note Python's
`str.replace` removes every occurrence of the prefix substring, not only
the leading one. -/
def urlParts (url : String) : List String :=
  (pySplitOnChar '/' (pyReplace humanHostStr.data [] url.data)).map String.mk

/-- `airtable.convert_url`: an API URL is returned unchanged; otherwise the
human-facing prefix is required, removed (every occurrence, via
`str.replace`), the rest split on `/`, the first three segments are required
to start with `app`, `tbl`, `viw`, and the API URL is assembled from them.
Fatal `error(...)` exits are modelled as `Except.error` carrying the
message. -/
def convert_url (url : String) : Except String String :=
  if pyStartsWith url apiHostStr then .ok url
  else if !pyStartsWith url humanHostStr then .error invalidUrlMsg
  else
    let parts := urlParts url
    if parts.length < 3 then .error invalidFormatMsg
    else
      match parts with
      | app_id :: table_id :: view_id :: _ =>
        if pyStartsWith app_id "app" && pyStartsWith table_id "tbl" && pyStartsWith view_id "viw" then
          .ok ("https://api.airtable.com/v0/" ++ app_id ++ "/" ++ table_id ++ "?view=" ++ view_id)
        else .error invalidComponentsMsg
      | _ => .error invalidFormatMsg

/-- `airtable.error(message, exit_code=1)`: the lines written to stderr
(exactly one, `Error: <message>`) and the exit code. -/
def airtableError (message : String) : List String × Nat :=
  (["Error: " ++ message], 1)

/-- The stderr lines produced by a `convert_url` call: none on success, the
single `airtable.error` line on a fatal URL error. -/
def convertUrlStderr (url : String) : List String :=
  match convert_url url with
  | .ok _ => []
  | .error m => (airtableError m).1

/-- Modelled from the spec's words (refinement comparison for the URL
conversion): "requires the input to have the human-facing host prefix;
strips it, splits the remainder on `/`" — i.e. only the leading occurrence
of the prefix is removed.  Identical to `convert_url` in every other
respect; the two differ because the source uses `str.replace`, which
removes every occurrence of the prefix substring. -/
def convert_url_specStripOnce (url : String) : Except String String :=
  if pyStartsWith url apiHostStr then .ok url
  else if !pyStartsWith url humanHostStr then .error invalidUrlMsg
  else
    let parts := (pySplitOnChar '/' (url.data.drop humanHostStr.data.length)).map String.mk
    if parts.length < 3 then .error invalidFormatMsg
    else
      match parts with
      | app_id :: table_id :: view_id :: _ =>
        if pyStartsWith app_id "app" && pyStartsWith table_id "tbl" && pyStartsWith view_id "viw" then
          .ok ("https://api.airtable.com/v0/" ++ app_id ++ "/" ++ table_id ++ "?view=" ++ view_id)
        else .error invalidComponentsMsg
      | _ => .error invalidFormatMsg

/-! ## `display.py` — table formatting -/

/-- The mismatch message of `display.format`, naming both counts. -/
def mismatchMsg (c h : Nat) : String :=
  "Columns (" ++ Nat.repr c ++ ") and headers (" ++ Nat.repr h ++ ") count mismatch"

/-- The stringified cell value before truncation: `row.get(column, "")`,
then `str(value) if value is not None else ""`. -/
def cellRawString (row : Record) (column : String) : String :=
  match (recordGet row column).getD (JVal.vStr "") with
  | .vNull => ""
  | v => pyStr v

/-- One formatted cell of `display.format`: the stringified value, truncated
to its first 47 characters plus `"..."` when longer than 50 characters. -/
def formatCell (row : Record) (column : String) : String :=
  let str_value := cellRawString row column
  if str_value.length > 50 then String.mk (str_value.data.take 47) ++ "..." else str_value

/-- `display.format`: requires equally many columns and headers (otherwise
the fatal `display.error` with exit code 1, before any row is built), then
formats every record into the selected columns' cells. -/
def format (data : List Record) (columns headers : List String) :
    Except (String × Nat) (List (List String)) :=
  if columns.length ≠ headers.length then
    .error (mismatchMsg columns.length headers.length, 1)
  else
    .ok (data.map fun row => columns.map (formatCell row))

/-- `display.table`: the literal `"No data to display"` for an empty row
list; otherwise delegates to the external `tabulate` renderer, taken here as
the explicit parameter `render` (its internal behaviour is third-party code,
not part of this repository). -/
def table (render : List (List String) → List String → String)
    (data : List (List String)) (headers : List String) : String :=
  if data.isEmpty then "No data to display" else render data headers

/-- `display.print_table`: prints the literal `"No data available"` and
returns when the record list is empty (before any formatting or count
check); otherwise formats and renders.  The returned value is the list of
stdout lines; the error carries `display.error`'s message and exit code. -/
def print_table (render : List (List String) → List String → String)
    (data : List Record) (columns headers : List String) :
    Except (String × Nat) (List String) :=
  if data.isEmpty then .ok ["No data available"]
  else
    match format data columns headers with
    | .error e => .error e
    | .ok formatted => .ok [table render formatted headers]

/-! ## `config.py` — configuration resolution -/

/-- A process environment: variable name to value (absent = unset). -/
abbrev Env := String → Option String

/-- `config.error`: the two stderr lines (message and remediation tip) and
the exit code. -/
def configError (message : String) : List String × Nat :=
  (["Error: " ++ message, "Tip: Copy .env.example to .env and add your credentials"], 1)

/-- `config.get(key, default)` = `os.getenv(key, default)`. -/
def cfgGet (env : Env) (key : String) (default : Option String) : Option String :=
  match env key with
  | some v => some v
  | none => default

/-- `config.require`: the variable's value, or the fatal `config.error` when
it is unset or empty (Python's `if not value`). -/
def require (env : Env) (key : String) : Except (List String × Nat) String :=
  match env key with
  | some v =>
    if v = "" then .error (configError ("Required environment variable " ++ key ++ " not set"))
    else .ok v
  | none => .error (configError ("Required environment variable " ++ key ++ " not set"))

/-- The configuration mapping returned by `config.validate`. -/
structure Config where
  AIRTABLE_API_KEY : String
  AIRTABLE_VIEW_URL : String
  GR_COLUMNS : String
  GR_HEADERS : String
  FAC_CLI_DEBUG : Bool

/-- `config.validate`: requires the two mandatory variables (fatal exit on
the first missing one), fills the optional ones with their defaults, and
parses the debug flag case-insensitively from the literal `"true"`. -/
def validate (env : Env) : Except (List String × Nat) Config :=
  match require env "AIRTABLE_API_KEY" with
  | .error e => .error e
  | .ok key =>
    match require env "AIRTABLE_VIEW_URL" with
    | .error e => .error e
    | .ok url =>
      .ok
        { AIRTABLE_API_KEY := key
          AIRTABLE_VIEW_URL := url
          GR_COLUMNS := (cfgGet env "GR_COLUMNS" (some "Name,Email,Status,Date")).getD ""
          GR_HEADERS :=
            (cfgGet env "GR_HEADERS"
              (some "Student Name,Email Address,Current Status,Last Updated")).getD ""
          FAC_CLI_DEBUG := pyLower ((cfgGet env "FAC_CLI_DEBUG" (some "false")).getD "") = "true" }

/-! ## `fac.py` — argument parsing and dispatch -/

/-- `fac.parse`: fewer than 2 tokens (program name + command) defaults to
`("help", [])`; otherwise the second token is the command and the rest is
passed through verbatim. -/
def parse (args : List String) : String × List String :=
  if args.length < 2 then ("help", [])
  else
    match args with
    | _ :: command :: rest => (command, rest)
    | _ => ("help", [])

/-- The static help text printed by `fac.show_help` (after `.strip()`). -/
def helpText : String :=
  "FAC CLI - Founders and Coders Training Operations\n\nUsage:\n  ./fac.py <command> [options]\n\nAvailable commands:\n  gr              Gateway recent - fetch and display recent gateway data\n  help, --help    Show this help message\n\nExamples:\n  ./fac.py gr     Display recent gateway data from Airtable\n  ./fac.py help   Show this help message\n\nConfiguration:\n  Copy .env.example to .env and configure your Airtable credentials.\n\nFor more information, see README.md"

/-- The commands that short-circuit to the help text. -/
def helpCommands : List String := ["help", "--help", "-h"]

/-- Observable outcome of one dispatch: stdout lines, stderr lines, the
process exit code, and whether `config.validate` ran. -/
structure ProcResult where
  stdout : List String
  stderr : List String
  exitCode : Nat
  configValidated : Bool
deriving DecidableEq, Repr

/-- `fac.dispatch`: help commands print the static help text and return
(exit code 0, no configuration validation); the registered `gr` command
first validates configuration (fatal exit on failure) and then runs the
handler, taken as the explicit parameter `gr`; anything else is the unknown
command error.  The `except` wrappers around the handler (interrupt → 130,
debug re-raise) concern runtime exceptions of the handler's I/O and are
folded into the `gr` parameter's result. -/
def dispatch (env : Env) (gr : Config → List String → ProcResult)
    (command : String) (args : List String) : ProcResult :=
  if command ∈ helpCommands then
    { stdout := [helpText], stderr := [], exitCode := 0, configValidated := false }
  else if command = "gr" then
    match validate env with
    | .error e => { stdout := [], stderr := e.1, exitCode := e.2, configValidated := true }
    | .ok cfg =>
      let r := gr cfg args
      { r with configValidated := true }
  else
    { stdout := []
      stderr := ["Error: Unknown command: " ++ command,
                 "Use './fac.py help' for usage information"]
      exitCode := 1
      configValidated := false }

/-- `fac.route`: parse then dispatch. -/
def route (env : Env) (gr : Config → List String → ProcResult)
    (args : List String) : ProcResult :=
  dispatch env gr (parse args).1 (parse args).2

/-! ## Helper lemmas -/

theorem natDigitsAux_succ_ne_nil (fuel n : Nat) : natDigitsAux (fuel + 1) n ≠ [] := by
  simp only [natDigitsAux]
  split
  · simp
  · simp

theorem natDigits_ne_nil (n : Nat) : natDigits n ≠ [] :=
  natDigitsAux_succ_ne_nil n n

theorem pyIntStr_ne_empty (n : Int) : pyIntStr n ≠ "" := by
  cases n with
  | ofNat m =>
    intro h
    exact natDigits_ne_nil m (congrArg String.data h)
  | negSucc m =>
    intro h
    exact List.cons_ne_nil _ _ (congrArg String.data h)

theorem append_ne_empty_of_left_ne_empty (a b : String) (ha : a ≠ "") : a ++ b ≠ "" := by
  intro h
  apply ha
  have hd := congrArg String.data h
  rw [String.data_append] at hd
  exact String.ext (List.append_eq_nil.mp hd).1

theorem pyStr_eq_empty_iff (v : JVal) : pyStr v = "" ↔ v = JVal.vStr "" := by
  cases v with
  | vNull =>
    refine iff_of_false (by decide) ?_
    intro h; exact JVal.noConfusion h
  | vBool b =>
    refine iff_of_false ?_ ?_
    · cases b <;> decide
    · intro h; exact JVal.noConfusion h
  | vNum n =>
    refine iff_of_false ?_ ?_
    · exact pyIntStr_ne_empty n
    · intro h; exact JVal.noConfusion h
  | vStr s =>
    simp only [pyStr]
    constructor
    · intro h; rw [h]
    · intro h; cases h; rfl
  | vList xs =>
    refine iff_of_false ?_ ?_
    · show "[" ++ pyReprSeq xs ++ "]" ≠ ""
      exact append_ne_empty_of_left_ne_empty _ _
        (append_ne_empty_of_left_ne_empty _ _ (by decide))
    · intro h; exact JVal.noConfusion h
  | vObj kvs =>
    refine iff_of_false ?_ ?_
    · show "\x7b" ++ pyReprPairs kvs ++ "\x7d" ≠ ""
      exact append_ne_empty_of_left_ne_empty _ _
        (append_ne_empty_of_left_ne_empty _ _ (by decide))
    · intro h; exact JVal.noConfusion h

theorem pyStartsWith_append (p s : String) : pyStartsWith (p ++ s) p = true := by
  simp [pyStartsWith, String.data_append, List.isPrefixOf_iff_prefix]

/-! ## Claim theorems -/

/-- C7: for every string `s`, `abbreviate_name s` (the spec's
`truncate(s)` with the default width 4) has length `min (len s) 4`,
consists of the first 4 characters of `s`, and equals `s` unchanged when
`len s ≤ 4`. -/
theorem abbreviate_name_spec (s : String) :
    (abbreviate_name s).length = min s.length 4 ∧
    (abbreviate_name s).data = s.data.take 4 ∧
    (s.length ≤ 4 → abbreviate_name s = s) := by
  refine ⟨?_, rfl, ?_⟩
  · show (s.data.take 4).length = min s.length 4
    rw [List.length_take, Nat.min_comm]
    rfl
  · intro h
    show String.mk (s.data.take 4) = s
    rw [List.take_of_length_le h]

/-- C7 witness: `abbreviate_name` leaves the 3-character string `"Bob"`
unchanged. -/
theorem abbreviate_name_spec_witness : abbreviate_name "Bob" = "Bob" :=
  (abbreviate_name_spec "Bob").2.2 (by decide)

/-- C8: `print_table` on an empty record list prints exactly the literal
`"No data available"`, for every renderer and every column/header lists (no
table is built — the result does not depend on the renderer); independently,
`table` on an empty rows list returns the literal `"No data to display"`. -/
theorem print_table_empty_spec
    (render : List (List String) → List String → String)
    (columns headers headers' : List String) :
    print_table render [] columns headers = .ok ["No data available"] ∧
    table render [] headers' = "No data to display" := by
  constructor
  · rfl
  · rfl

/-- C6: `format` with differing column and header counts fails with the
fatal `display.error` (message naming both counts, exit code 1) for every
input record list, including the empty one, and the failure does not depend
on the records at all (the check precedes row building). -/
theorem format_count_mismatch (data data' : List Record) (columns headers : List String)
    (h : columns.length ≠ headers.length) :
    format data columns headers = .error (mismatchMsg columns.length headers.length, 1) ∧
    format data columns headers = format data' columns headers := by
  constructor
  · simp [format, h]
  · simp [format, h]

/-- C6 witness: two columns against one header fail with the message naming
the counts 2 and 1, already on the empty record list. -/
theorem format_count_mismatch_witness :
    format [] ["Name", "Email"] ["Student Name"] = .error (mismatchMsg 2 1, 1) :=
  (format_count_mismatch [] [[("Name", JVal.vNull)]] ["Name", "Email"] ["Student Name"]
    (by decide)).1

/-- C10 counterexample: `flatten_array_value` also returns the empty string
for the empty string passed directly, which is neither the empty list nor
`None`; so the empty string is not returned *only* for those two inputs. -/
theorem flatten_empty_string_counterexample :
    flatten_array_value (JVal.vStr "") = "" ∧
    JVal.vStr "" ≠ JVal.vList [] ∧
    JVal.vStr "" ≠ JVal.vNull := by
  refine ⟨rfl, ?_, ?_⟩
  · intro h; exact JVal.noConfusion h
  · intro h; exact JVal.noConfusion h

/-- C10 amended: a non-empty list whose first element is `None` flattens to
the four-character string `"None"`; the empty string is returned exactly for
the empty list, `None` passed directly, the empty string passed directly, or
a non-empty list whose first element is the empty string. -/
theorem flatten_array_value_spec :
    (∀ xs : List JVal, flatten_array_value (JVal.vList (JVal.vNull :: xs)) = "None") ∧
    (∀ v : JVal, flatten_array_value v = "" ↔
      v = JVal.vNull ∨ v = JVal.vList [] ∨ v = JVal.vStr "" ∨
      ∃ xs : List JVal, v = JVal.vList (JVal.vStr "" :: xs)) := by
  constructor
  · intro xs
    rfl
  · intro v
    cases v with
    | vNull => simp [flatten_array_value]
    | vBool b =>
      have h1 : pyStr (JVal.vBool b) ≠ "" := by
        rw [Ne, pyStr_eq_empty_iff]
        intro h; exact JVal.noConfusion h
      simp only [flatten_array_value]
      refine iff_of_false h1 ?_
      rintro (h | h | h | ⟨xs, h⟩) <;> exact JVal.noConfusion h
    | vNum n =>
      have h1 : pyStr (JVal.vNum n) ≠ "" := by
        rw [Ne, pyStr_eq_empty_iff]
        intro h; exact JVal.noConfusion h
      simp only [flatten_array_value]
      refine iff_of_false h1 ?_
      rintro (h | h | h | ⟨xs, h⟩) <;> exact JVal.noConfusion h
    | vStr s =>
      simp only [flatten_array_value, pyStr]
      constructor
      · intro h
        exact Or.inr (Or.inr (Or.inl (by rw [h])))
      · rintro (h | h | h | ⟨xs, h⟩) <;> first
          | exact JVal.noConfusion h
          | (cases h; rfl)
    | vList xs =>
      cases xs with
      | nil => simp [flatten_array_value]
      | cons x rest =>
        simp only [flatten_array_value]
        rw [pyStr_eq_empty_iff]
        constructor
        · intro h
          exact Or.inr (Or.inr (Or.inr ⟨rest, by rw [h]⟩))
        · rintro (h | h | h | ⟨ys, h⟩)
          · exact JVal.noConfusion h
          · injection h with h'; exact absurd h' (List.cons_ne_nil _ _)
          · exact JVal.noConfusion h
          · cases h; rfl
    | vObj kvs =>
      have h1 : pyStr (JVal.vObj kvs) ≠ "" := by
        rw [Ne, pyStr_eq_empty_iff]
        intro h; exact JVal.noConfusion h
      simp only [flatten_array_value]
      refine iff_of_false h1 ?_
      rintro (h | h | h | ⟨xs, h⟩) <;> exact JVal.noConfusion h

/-- C1 counterexample: on an input containing a second embedded occurrence
of the human-facing prefix, the code's `str.replace` removes both
occurrences and accepts the URL, whereas the claim's "strips it" (remove the
leading prefix once, then split) would reject it: its second path segment
`"https:"` does not begin with `tbl`. -/
theorem convert_url_not_strip_once :
    convert_url "https://airtable.com/appA/https://airtable.com/tblB/viwC" =
      .ok "https://api.airtable.com/v0/appA/tblB?view=viwC" ∧
    convert_url_specStripOnce "https://airtable.com/appA/https://airtable.com/tblB/viwC" =
      .error invalidComponentsMsg := by
  constructor
  · rfl
  · rfl

/-- C1 amended: `convert_url` returns an input with the API host prefix
unchanged; any other input must have the human-facing prefix, *every
occurrence* of that prefix substring is removed (Python `str.replace`, not
just the leading one), the result is split on `/`, at least three segments
beginning with `app`, `tbl`, `viw` are required, and the API URL is
assembled from the first three, discarding the rest; in particular
`convert_url "https://airtable.com/appA1/tblB2/viwC3"` is
`"https://api.airtable.com/v0/appA1/tblB2?view=viwC3"`. -/
theorem convert_url_amended_spec :
    (∀ u, pyStartsWith u apiHostStr = true → convert_url u = .ok u) ∧
    (∀ u, pyStartsWith u apiHostStr = false → pyStartsWith u humanHostStr = false →
      convert_url u = .error invalidUrlMsg) ∧
    (∀ u, pyStartsWith u apiHostStr = false → pyStartsWith u humanHostStr = true →
      (urlParts u).length < 3 → convert_url u = .error invalidFormatMsg) ∧
    (∀ u a t v rest, pyStartsWith u apiHostStr = false → pyStartsWith u humanHostStr = true →
      urlParts u = a :: t :: v :: rest →
      pyStartsWith a "app" = true → pyStartsWith t "tbl" = true → pyStartsWith v "viw" = true →
      convert_url u = .ok ("https://api.airtable.com/v0/" ++ a ++ "/" ++ t ++ "?view=" ++ v)) ∧
    (∀ u a t v rest, pyStartsWith u apiHostStr = false → pyStartsWith u humanHostStr = true →
      urlParts u = a :: t :: v :: rest →
      (pyStartsWith a "app" && pyStartsWith t "tbl" && pyStartsWith v "viw") = false →
      convert_url u = .error invalidComponentsMsg) ∧
    convert_url "https://airtable.com/appA1/tblB2/viwC3" =
      .ok "https://api.airtable.com/v0/appA1/tblB2?view=viwC3" := by
  refine ⟨?_, ?_, ?_, ?_, ?_, rfl⟩
  · intro u h1
    simp [convert_url, h1]
  · intro u h1 h2
    simp [convert_url, h1, h2]
  · intro u h1 h2 h3
    simp [convert_url, h1, h2, h3]
  · intro u a t v rest h1 h2 hp ha ht hv
    simp [convert_url, h1, h2, hp, ha, ht, hv]
  · intro u a t v rest h1 h2 hp hc
    simp [convert_url, h1, h2, hp, hc]

/-- C1 witness: an input that already has the API host prefix is returned
unchanged. -/
theorem convert_url_amended_spec_witness :
    convert_url "https://api.airtable.com/v0/x" = .ok "https://api.airtable.com/v0/x" :=
  convert_url_amended_spec.1 "https://api.airtable.com/v0/x" rfl

/-- C2 counterexample: a URL-shape error writes exactly one line to the
error stream — the message itself — with no additional remediation-tip
line (so it is not the case that a tip is printed in addition to the
message). -/
theorem convert_url_error_no_tip_counterexample :
    convertUrlStderr "https://example.com/invalid" = ["Error: " ++ invalidUrlMsg] ∧
    (convertUrlStderr "https://example.com/invalid").length = 1 ∧
    ¬ 2 ≤ (convertUrlStderr "https://example.com/invalid").length := by
  refine ⟨rfl, rfl, ?_⟩
  decide

/-- C2 amended: every URL-shape error writes exactly the single line
`Error: <message>` to the error stream and exits with code 1; the
remediation hint (the expected URL shape) is part of that message itself,
not an additional printed line. -/
theorem convert_url_error_single_line (u m : String) (h : convert_url u = .error m) :
    convertUrlStderr u = ["Error: " ++ m] ∧
    (airtableError m).2 = 1 ∧
    (m = invalidUrlMsg ∨ m = invalidFormatMsg ∨ m = invalidComponentsMsg) := by
  refine ⟨by simp [convertUrlStderr, h, airtableError], rfl, ?_⟩
  simp only [convert_url] at h
  split at h
  · exact absurd h (by simp)
  · split at h
    · injection h with h'
      exact Or.inl h'.symm
    · split at h
      · injection h with h'
        exact Or.inr (Or.inl h'.symm)
      · split at h
        · split at h
          · exact absurd h (by simp)
          · injection h with h'
            exact Or.inr (Or.inr h'.symm)
        · injection h with h'
          exact Or.inr (Or.inl h'.symm)

/-- C2 witness: the wrong-host input produces the single stderr line
carrying `invalidUrlMsg`. -/
theorem convert_url_error_single_line_witness :
    convertUrlStderr "notaurl" = ["Error: " ++ invalidUrlMsg] :=
  (convert_url_error_single_line "notaurl" invalidUrlMsg rfl).1

/-- C4: `convert_url` is idempotent on every accepted input (in particular
on every valid human-facing view URL): a successful output is itself
converted to itself, because every produced URL carries the API host
prefix and is therefore returned unchanged. -/
theorem convert_url_idempotent (u r : String)
    (hu : pyStartsWith u humanHostStr = true)
    (h : convert_url u = .ok r) :
    convert_url r = .ok r := by
  by_cases h1 : pyStartsWith u apiHostStr = true
  · have hr : r = u := by
      simp [convert_url, h1] at h
      exact h.symm
    rw [hr]
    simp [convert_url, h1]
  · have h1' : pyStartsWith u apiHostStr = false := by
      cases hb : pyStartsWith u apiHostStr
      · rfl
      · exact absurd hb h1
    simp only [convert_url, h1', hu, Bool.false_eq_true, if_false, Bool.not_true, if_true] at h
    split at h
    · exact absurd h (by simp)
    · split at h
      · split at h
        · injection h with h'
          have hr : pyStartsWith r apiHostStr = true := by
            rw [← h']
            have he : ("https://api.airtable.com/v0/" : String) = apiHostStr ++ "v0/" := rfl
            rw [he, String.append_assoc, String.append_assoc, String.append_assoc,
              String.append_assoc]
            exact pyStartsWith_append apiHostStr _
          simp [convert_url, hr]
        · exact absurd h (by simp)
      · exact absurd h (by simp)

/-- C4 witness: converting the sample human-facing URL and converting its
output again returns the output unchanged. -/
theorem convert_url_idempotent_witness :
    convert_url "https://api.airtable.com/v0/appA1/tblB2?view=viwC3" =
      .ok "https://api.airtable.com/v0/appA1/tblB2?view=viwC3" :=
  convert_url_idempotent "https://airtable.com/appA1/tblB2/viwC3"
    "https://api.airtable.com/v0/appA1/tblB2?view=viwC3" rfl rfl

theorem recordGet_map_update_ne (newv : JVal) (r : Record) (k : String)
    (hk : k ≠ "Family name") :
    recordGet (r.map fun kv => (kv.1, if kv.1 = "Family name" then newv else kv.2)) k
      = recordGet r k := by
  induction r with
  | nil => rfl
  | cons kv rest ih =>
    obtain ⟨k', v'⟩ := kv
    by_cases h1 : k' = k
    · subst h1
      simp [recordGet, hk]
    · simp [recordGet, h1, ih]

theorem recordGet_map_update_family (newv : JVal) (r : Record) (v : JVal)
    (h : recordGet r "Family name" = some v) :
    recordGet (r.map fun kv => (kv.1, if kv.1 = "Family name" then newv else kv.2)) "Family name"
      = some newv := by
  induction r with
  | nil => simp [recordGet] at h
  | cons kv rest ih =>
    obtain ⟨k', v'⟩ := kv
    by_cases h1 : k' = "Family name"
    · subst h1
      simp [recordGet]
    · simp [recordGet, h1] at h ⊢
      exact ih h

theorem processRecord_map_eq (newv : JVal) :
    (fun kv : String × JVal => if kv.1 = "Family name" then (kv.1, newv) else kv)
      = fun kv : String × JVal => (kv.1, if kv.1 = "Family name" then newv else kv.2) := by
  funext kv
  by_cases h : kv.1 = "Family name" <;> simp [h]

theorem processRecord_get_ne (r : Record) (k : String) (hk : k ≠ "Family name") :
    recordGet (processRecord r) k = recordGet r k := by
  unfold processRecord
  cases h : recordGet r "Family name" with
  | none => rfl
  | some v =>
    show recordGet
        (r.map fun kv =>
          if kv.1 = "Family name" then
            (kv.1, JVal.vStr (abbreviate_name (flatten_array_value v)))
          else kv) k
      = recordGet r k
    rw [processRecord_map_eq]
    exact recordGet_map_update_ne _ r k hk

theorem processRecord_get_family (r : Record) (v : JVal)
    (h : recordGet r "Family name" = some v) :
    recordGet (processRecord r) "Family name" =
      some (JVal.vStr (abbreviate_name (flatten_array_value v))) := by
  unfold processRecord
  rw [h]
  show recordGet
      (r.map fun kv =>
        if kv.1 = "Family name" then
          (kv.1, JVal.vStr (abbreviate_name (flatten_array_value v)))
        else kv) "Family name"
    = some (JVal.vStr (abbreviate_name (flatten_array_value v)))
  rw [processRecord_map_eq]
  exact recordGet_map_update_family _ r v h

theorem process_some_eq_map (records : List Record) :
    process (some records) = records.map processRecord := by
  cases records <;> rfl

theorem process_get (records : List Record) (i : Nat)
    (h2 : i < (process (some records)).length) (h : i < records.length) :
    (process (some records)).get ⟨i, h2⟩ = processRecord (records.get ⟨i, h⟩) := by
  cases records with
  | nil => exact absurd h (by simp)
  | cons a l =>
    show ((a :: l).map processRecord).get ⟨i, _⟩ = _
    simp only [List.get_eq_getElem, List.getElem_map]

/-- C3: `process` maps `None` and `[]` to `[]`, preserves the length of any
record list, keeps every key other than `"Family name"` bound to its old
value, rewrites a present `"Family name"` value `v` to
`abbreviate_name (flatten_array_value v)` (the spec's
`truncate(flatten(v), 4)`), and in particular maps
`[{"Family name": ["Elizabeth"], "Status": "x"}]` to
`[{"Family name": "Eliz", "Status": "x"}]`. -/
theorem process_spec :
    process none = [] ∧ process (some []) = [] ∧
    (∀ records : List Record, (process (some records)).length = records.length) ∧
    (∀ (records : List Record) (i : Nat) (h : i < records.length)
        (h2 : i < (process (some records)).length),
      (∀ k, k ≠ "Family name" →
        recordGet ((process (some records)).get ⟨i, h2⟩) k =
          recordGet (records.get ⟨i, h⟩) k) ∧
      (∀ v, recordGet (records.get ⟨i, h⟩) "Family name" = some v →
        recordGet ((process (some records)).get ⟨i, h2⟩) "Family name" =
          some (JVal.vStr (abbreviate_name (flatten_array_value v))))) ∧
    process
        (some [[("Family name", JVal.vList [JVal.vStr "Elizabeth"]), ("Status", JVal.vStr "x")]]) =
      [[("Family name", JVal.vStr "Eliz"), ("Status", JVal.vStr "x")]] := by
  refine ⟨rfl, rfl, ?_, ?_, rfl⟩
  · intro records
    rw [process_some_eq_map, List.length_map]
  · intro records i h h2
    rw [process_get records i h2 h]
    constructor
    · intro k hk
      exact processRecord_get_ne _ k hk
    · intro v hv
      exact processRecord_get_family _ v hv

/-- C3 witness: on a one-record list, the key `"Status"` keeps its value
across `process`. -/
theorem process_spec_witness :
    recordGet
        ((process (some [[("Family name", JVal.vStr "Robert"), ("Status", JVal.vStr "x")]])).get
          ⟨0, by decide⟩) "Status" =
      recordGet
        ([[("Family name", JVal.vStr "Robert"), ("Status", JVal.vStr "x")]].get
          ⟨(0 : Nat), by decide⟩) "Status" :=
  (process_spec.2.2.2.1 [[("Family name", JVal.vStr "Robert"), ("Status", JVal.vStr "x")]]
    0 (by decide) (by decide)).1 "Status" (by decide)

/-- C5: in `formatCell`, a stringified value longer than 50 characters is
replaced by its first 47 characters followed by `"..."` — exactly 50
characters ending in `"..."`; a stringified value of length at most 50 is
kept unchanged; a `None` value and an absent column key both give the empty
string. -/
theorem formatCell_spec (row : Record) (column : String) :
    ((cellRawString row column).length > 50 →
      formatCell row column = String.mk ((cellRawString row column).data.take 47) ++ "..." ∧
      (formatCell row column).length = 50 ∧
      (formatCell row column).data.drop 47 = "...".data) ∧
    ((cellRawString row column).length ≤ 50 →
      formatCell row column = cellRawString row column) ∧
    (recordGet row column = some JVal.vNull → formatCell row column = "") ∧
    (recordGet row column = none → formatCell row column = "") := by
  refine ⟨?_, ?_, ?_, ?_⟩
  · intro h
    have h47 : ((cellRawString row column).data.take 47).length = 47 := by
      rw [List.length_take]
      refine Nat.min_eq_left ?_
      have hd : (cellRawString row column).data.length = (cellRawString row column).length := rfl
      omega
    have he : formatCell row column
        = String.mk ((cellRawString row column).data.take 47) ++ "..." := by
      simp [formatCell, h]
    refine ⟨he, ?_, ?_⟩
    · rw [he, String.length_append, String.length_mk, h47]
      decide
    · rw [he, String.data_append]
      show (List.take 47 (cellRawString row column).data ++ "...".data).drop 47 = "...".data
      have hd := List.drop_left (List.take 47 (cellRawString row column).data) "...".data
      rw [h47] at hd
      exact hd
  · intro h
    have hn : ¬ (cellRawString row column).length > 50 := Nat.not_lt.mpr h
    simp [formatCell, hn]
  · intro h
    simp [formatCell, cellRawString, h]
  · intro h
    simp [formatCell, cellRawString, h, pyStr]

/-- C5 witness: a 60-character value is truncated to exactly 50
characters. -/
theorem formatCell_spec_witness :
    (formatCell
        [("Notes", JVal.vStr "xxxxxxxxxxxxxxxxxxxxxxxxxxxxxxxxxxxxxxxxxxxxxxxxxxxxxxxxxxxx")]
        "Notes").length = 50 :=
  ((formatCell_spec
      [("Notes", JVal.vStr "xxxxxxxxxxxxxxxxxxxxxxxxxxxxxxxxxxxxxxxxxxxxxxxxxxxxxxxxxxxx")]
      "Notes").1 (by decide)).2.1

/-- C9: `parse` on fewer than 2 argv tokens yields `("help", [])`, and
dispatching the parsed result is literally dispatching `"help"`: the static
help text is the only output, the exit code is 0, no configuration
validation runs, and the outcome is independent of the environment, the
handler and the remaining arguments. -/
theorem parse_defaults_to_help :
    (∀ argv : List String, argv.length < 2 → parse argv = ("help", [])) ∧
    (∀ (env : Env) (gr : Config → List String → ProcResult) (argv : List String),
      argv.length < 2 → route env gr argv = dispatch env gr "help" []) ∧
    (∀ (env : Env) (gr : Config → List String → ProcResult),
      dispatch env gr "help" [] =
        { stdout := [helpText], stderr := [], exitCode := 0, configValidated := false }) ∧
    (∀ (env env' : Env) (gr gr' : Config → List String → ProcResult) (args args' : List String),
      dispatch env gr "help" args = dispatch env' gr' "help" args') := by
  have hparse : ∀ argv : List String, argv.length < 2 → parse argv = ("help", []) := by
    intro argv h
    simp [parse, h]
  have hhelp : ∀ (env : Env) (gr : Config → List String → ProcResult) (args : List String),
      dispatch env gr "help" args =
        { stdout := [helpText], stderr := [], exitCode := 0, configValidated := false } := by
    intro env gr args
    simp [dispatch, helpCommands]
  refine ⟨hparse, ?_, fun env gr => hhelp env gr [], ?_⟩
  · intro env gr argv h
    unfold route
    rw [hparse argv h]
  · intro env env' gr gr' args args'
    rw [hhelp, hhelp]

/-- C9 witness: an empty argv dispatches exactly like an explicit `help`
command, with the help text on stdout and exit code 0. -/
theorem parse_defaults_to_help_witness :
    route (fun _ => none) (fun _ _ => ⟨[], [], 0, false⟩) [] =
      { stdout := [helpText], stderr := [], exitCode := 0, configValidated := false } := by
  rw [parse_defaults_to_help.2.1 (fun _ => none) (fun _ _ => ⟨[], [], 0, false⟩) [] (by decide)]
  exact parse_defaults_to_help.2.2.1 (fun _ => none) (fun _ _ => ⟨[], [], 0, false⟩)

end FacCli
